import Mathlib

/-!
Verification development for the sexy-ozon-parser repository.

The Python sources under `src/` are shallowly embedded: pure logic is
translated into executable Lean definitions, stateful code (the JSON
review storage) into explicit state passing, and fallible code (Python
exceptions) into `Except`/`Option` values.  Behaviour that belongs to
the external browser/DOM collaborator (Playwright selectors, navigation)
is represented by the data it hands to the core logic, never re-modelled.
-/

namespace OzonReviews

/-- Calendar date, modelling the Python `datetime` values the repository
builds with `datetime(year, month, day)`.  The repository only ever
compares such values (time-of-day never differs in a comparison that
matters, as dates are parsed from day-level strings). -/
structure PDate where
  year : Nat
  month : Nat
  day : Nat
deriving DecidableEq, Repr

/-- Python `datetime` comparison restricted to dates: lexicographic on
(year, month, day).  `PDate.ble a b` means `a <= b`. -/
def PDate.ble (a b : PDate) : Bool :=
  if a.year ≠ b.year then decide (a.year < b.year)
  else if a.month ≠ b.month then decide (a.month < b.month)
  else decide (a.day ≤ b.day)

/-- Leap-year rule used by Python's `datetime` validity check. -/
def isLeapYear (y : Nat) : Bool :=
  y % 4 == 0 && (y % 100 != 0 || y % 400 == 0)

/-- Number of days in a month, as `datetime` validates it. -/
def daysInMonth (y m : Nat) : Nat :=
  if m = 2 then (if isLeapYear y then 29 else 28)
  else if m = 4 ∨ m = 6 ∨ m = 9 ∨ m = 11 then 30
  else 31

/-- Validity condition of `datetime(year, month, day)`: out-of-range
components raise `ValueError`. -/
def validYMD (y m d : Nat) : Bool :=
  decide (1 ≤ y ∧ y ≤ 9999 ∧ 1 ≤ m ∧ m ≤ 12 ∧ 1 ≤ d ∧ d ≤ daysInMonth y m)

/-- Python `datetime(year, month, day)`: `.error` models the raised
`ValueError`. -/
def mkDatetime (y m d : Nat) : Except Unit PDate :=
  if validYMD y m d then .ok ⟨y, m, d⟩ else .error ()

/-- ASCII digit test; the repository's date strings use ASCII digits. -/
def isDigitCh (c : Char) : Bool := c.isDigit

/-- Whitespace as matched by the `\s` class on the strings the repository
handles (plain spaces in practice). -/
def isSpaceCh (c : Char) : Bool :=
  c == ' ' || c == '\t' || c == '\n' || c == '\r'

/-- The character class `[а-яА-Я]` from the Russian-month regular
expression in `parse_date`. -/
def isCyrillic (c : Char) : Bool :=
  (0x430 ≤ c.toNat && c.toNat ≤ 0x44F) || (0x410 ≤ c.toNat && c.toNat ≤ 0x42F)

/-- Effect of Python `str.lower()` on the characters `[а-яА-Я]` (the only
ones the month lookup ever sees). -/
def lowerCyr (c : Char) : Char :=
  if 0x410 ≤ c.toNat ∧ c.toNat ≤ 0x42F then Char.ofNat (c.toNat + 0x20) else c

/-- Numeric value of a digit string. -/
def natOfDigits (cs : List Char) : Nat :=
  cs.foldl (fun n c => n * 10 + (c.toNat - '0'.toNat)) 0

/-- Python `int(s)` on the substrings produced by the date-splitting code:
succeeds exactly on non-empty all-digit strings (sign/whitespace forms do
not occur in the repository's date strings); `none` models the raised
`ValueError`. -/
def pyInt (cs : List Char) : Option Nat :=
  if cs ≠ [] ∧ cs.all isDigitCh then some (natOfDigits cs) else none

/-- Prefix test for `re.match(r'\d{1,2}SEP\d{1,2}SEP\d{4}', s)` with a
one-character separator (`.` or `/`): anchored at the start, the rest of
the string unconstrained.  Greedy `\d{1,2}` with backtracking succeeds
exactly when the leading digit run has length 1 or 2 and is followed by
the separator. -/
def matchesDMYPre (sep : Char) (cs : List Char) : Bool :=
  let n1 := (cs.takeWhile isDigitCh).length
  if n1 = 1 ∨ n1 = 2 then
    match cs.drop n1 with
    | c :: rest1 =>
      if c == sep then
        let n2 := (rest1.takeWhile isDigitCh).length
        if n2 = 1 ∨ n2 = 2 then
          match rest1.drop n2 with
          | c2 :: rest2 =>
            c2 == sep && decide (4 ≤ (rest2.takeWhile isDigitCh).length)
          | [] => false
        else false
      else false
    | [] => false
  else false

/-- Python `s.split(sep)` for a one-character separator. -/
def splitOnCh (sep : Char) : List Char → List (List Char)
  | [] => [[]]
  | c :: rest =>
    let r := splitOnCh sep rest
    if c == sep then [] :: r
    else
      match r with
      | h :: t => (c :: h) :: t
      | [] => [[c]]

/-- The conversion `day, month, year = map(int, date_str.split(sep))`
followed by `datetime(year, month, day)`.  Any raised `ValueError`
(wrong part count, non-numeric part, invalid date) is `.error`. -/
def dmySplitConvert (sep : Char) (cs : List Char) : Except Unit PDate :=
  match splitOnCh sep cs with
  | [a, b, c] =>
    match pyInt a, pyInt b, pyInt c with
    | some d, some m, some y => mkDatetime y m d
    | _, _, _ => .error ()
  | _ => .error ()

/-- Prefix match of `re.match(r'(\d{1,2})\s+([а-яА-Я]+)\s+(\d{4})', s)`:
returns the three captured groups (day, month-name characters, year).
Each quantifier is greedy; backtracking never helps because the follower
class is disjoint from the repeated class, so maximal runs are faithful. -/
def matchRussianDate (cs : List Char) : Option (Nat × List Char × Nat) :=
  let d1 := cs.takeWhile isDigitCh
  if d1.length = 1 ∨ d1.length = 2 then
    let rest1 := cs.drop d1.length
    let sp1 := rest1.takeWhile isSpaceCh
    if sp1.length ≥ 1 then
      let rest2 := rest1.drop sp1.length
      let mn := rest2.takeWhile isCyrillic
      if mn.length ≥ 1 then
        let rest3 := rest2.drop mn.length
        let sp2 := rest3.takeWhile isSpaceCh
        if sp2.length ≥ 1 then
          let rest4 := rest3.drop sp2.length
          let yd := rest4.takeWhile isDigitCh
          if yd.length ≥ 4 then
            some (natOfDigits d1, mn, natOfDigits (yd.take 4))
          else none
        else none
      else none
    else none
  else none

/-- The `months_ru` dictionary of `parse_date`. -/
def months_ru : List (String × Nat) :=
  [("января", 1), ("февраля", 2), ("марта", 3), ("апреля", 4),
   ("мая", 5), ("июня", 6), ("июля", 7), ("августа", 8),
   ("сентября", 9), ("октября", 10), ("ноября", 11), ("декабря", 12)]

/-- `month_name.lower()` followed by the `months_ru` lookup. -/
def lookupMonth (mn : List Char) : Option Nat :=
  (months_ru.find? (fun p => p.1 == String.mk (mn.map lowerCyr))).map (·.2)

/-- `datetime.fromisoformat(s)` as exercised by the repository: succeeds on
a `YYYY-MM-DD` string denoting a valid date; every failure raises
`ValueError`, which `parse_date` catches and ignores. -/
def fromIsoFormat (cs : List Char) : Option PDate :=
  match cs with
  | [y1, y2, y3, y4, h1, m1, m2, h2, d1, d2] =>
    if ([y1, y2, y3, y4].all isDigitCh) && h1 == '-' &&
       ([m1, m2].all isDigitCh) && h2 == '-' && ([d1, d2].all isDigitCh) then
      let y := natOfDigits [y1, y2, y3, y4]
      let m := natOfDigits [m1, m2]
      let d := natOfDigits [d1, d2]
      if validYMD y m d then some ⟨y, m, d⟩ else none
    else none
  | _ => none

/-- ISO and `DD/MM/YYYY` branches of `parse_date`, reached when neither
the dotted nor the Russian branch returned.  `none` means every format
failed to match, in which case the code falls back to `datetime.now()`. -/
def parseDateTail (cs : List Char) : Option (Except Unit PDate) :=
  match fromIsoFormat cs with
  | some d => some (.ok d)
  | none =>
    if matchesDMYPre '/' cs then some (dmySplitConvert '/' cs)
    else none

/-- Format cascade of the inner `parse_date` function of
`_is_newer_review` (ozon_review_parser.py lines 1988-2023), tried in the
source's order: `DD.MM.YYYY`, Russian long-form month names, ISO-8601,
`DD/MM/YYYY`.  `none`: no format matched (the code then falls back to
`datetime.now()`); `some (.error ())`: a matching branch raised
`ValueError` while building the date; `some (.ok d)`: a branch returned
the date `d`. -/
def parseDateCore (s : String) : Option (Except Unit PDate) :=
  let cs := s.data
  if matchesDMYPre '.' cs then some (dmySplitConvert '.' cs)
  else
    match matchRussianDate cs with
    | some (d, mn, y) =>
      match lookupMonth mn with
      | some m => some (mkDatetime y m d)
      | none => parseDateTail cs
    | none => parseDateTail cs

/-- `parse_date` with the ambient `datetime.now()` value supplied as a
parameter: on total format failure the current date is returned. -/
def parse_date (now : PDate) (s : String) : Except Unit PDate :=
  match parseDateCore s with
  | some r => r
  | none => .ok now

/-- Python truthiness of an optional string: `None` and `""` are falsy. -/
def truthyStr : Option String → Bool
  | none => false
  | some s => decide (s ≠ "")

/-- Review record as the dictionary built by `_parse_review`
(ozon_review_parser.py lines 1279-1289), restricted to the fields the
core logic reads: `review_id`, `date` (an `Option` models presence of
the dictionary key, checked by `'date' in review`), and `text`.  The
remaining fields (`author`, `rating`, `likes`, ...) are never consulted
by deduplication, filtering, storage identity or the run coordinator. -/
structure Review where
  review_id : String
  date : Option String
  text : String
deriving DecidableEq, Repr

/-- `OzonReviewParser._is_newer_review` (lines 1956-2034).  Returns
`true` when the record is accepted as new.  The outer `try/except` of
the source maps every `.error` outcome of a date parse to `true`. -/
def is_newer_review (now : PDate) (r : Review)
    (last_review_date : Option String) (last_review_ids : List String) : Bool :=
  match last_review_date with
  | none => true
  | some lds =>
    if lds = "" then true
    else if last_review_ids ≠ [] ∧ r.review_id ∈ last_review_ids then false
    else
      match r.date with
      | none => true
      | some ds =>
        match parse_date now ds, parse_date now lds with
        | .ok rd, .ok ld => PDate.ble ld rd
        | _, _ => true

/-- Incremental filtering step of `parse_product_reviews` (lines
1924-1935): applied only when `incremental` is set, a last-review date
is recorded and some raw records were collected; otherwise the raw list
passes through unchanged. -/
def filterIncremental (now : PDate) (incremental : Bool)
    (last_review_date : Option String) (last_review_ids : List String)
    (raw : List Review) : List Review :=
  if incremental ∧ truthyStr last_review_date ∧ raw ≠ [] then
    raw.filter (fun r => is_newer_review now r last_review_date last_review_ids)
  else raw

/-- Outcome of the adapter-side selector cascade for one review element,
i.e. what `_parse_review` (lines 877-1294) obtains from the DOM
collaborator: the `data-review-uuid` attribute when present, the text
the text-selector cascade settles on (`""` when every selector and the
JavaScript fallback fail), the date string when some date selector
matched (`none` keeps the `datetime.now()` default of line 1108), and
whether an exception escapes the element's processing — the only
condition under which `_parse_review` returns `None` (line 1294). -/
structure RawElement where
  reviewUuid : Option String
  text : String
  dateText : Option String
  raisesError : Bool
deriving DecidableEq, Repr

/-- Zero-padded rendering of `datetime.now().strftime("%d.%m.%Y")`. -/
def pad2 (n : Nat) : String :=
  if n < 10 then "0" ++ toString n else toString n

/-- Zero-padded four-digit year as `%Y` renders it. -/
def pad4 (n : Nat) : String :=
  if n < 10 then "000" ++ toString n
  else if n < 100 then "00" ++ toString n
  else if n < 1000 then "0" ++ toString n
  else toString n

/-- The default date string `datetime.now().strftime("%d.%m.%Y")` of
`_parse_review` line 1108. -/
def nowDateStr (now : PDate) : String :=
  pad2 now.day ++ "." ++ pad2 now.month ++ "." ++ pad4 now.year

/-- `OzonReviewParser._parse_review` (lines 877-1294): synthesizes a
review id from the product id and a millisecond timestamp unless the
element carries a stable `data-review-uuid`; always stores a `date` key
(selector result or the current date); always returns the record — an
element is dropped only when an exception escapes (the `except` of line
1292 returns `None`).  No validation of `text` is performed. -/
def parse_review (product_id : String) (timestampMs : Nat) (now : PDate)
    (el : RawElement) : Option Review :=
  if el.raisesError then none
  else
    some
      { review_id :=
          match el.reviewUuid with
          | some u => u
          | none => product_id ++ "_" ++ toString timestampMs,
        date := some (match el.dateText with
                      | some d => d
                      | none => nowDateStr now),
        text := el.text }

/-- One listing page as the DOM collaborator presents it: whether the
explicit "no reviews" indicator of lines 1500-1503 is present, and the
review elements found on the page. -/
structure PageModel where
  noReviewsIndicator : Bool
  elements : List RawElement
deriving DecidableEq, Repr

/-- `OzonReviewParser._collect_reviews_from_page` (lines 1467-1637):
returns `[]` immediately when the "no reviews" indicator is present
(line 1501); otherwise parses every element, keeping non-`None`
results (lines 1610-1613). -/
def collect_reviews_from_page (product_id : String) (timestampMs : Nat)
    (now : PDate) (pg : PageModel) : List Review :=
  if pg.noReviewsIndicator then []
  else pg.elements.filterMap (parse_review product_id timestampMs now)

/-- The distinct exits of the page loop in `parse_product_reviews`
(lines 1892-1920).  `exhausted` is the empty-page break taken because
`_collect_reviews_from_page` returned early on the "no reviews"
indicator; `noRecordsOnPage` the same break without the indicator;
`limitReached` the `max_reviews` break of line 1908; `noNextPage` the
break of line 1913 when `_navigate_to_next_reviews_page` fails. -/
inductive StopReason where
  | exhausted
  | noRecordsOnPage
  | limitReached
  | noNextPage
deriving DecidableEq, Repr

/-- Result of the page loop: accumulated raw records, the exit taken,
and the number of page fetches performed. -/
structure TraversalState where
  raw : List Review
  reason : StopReason
  fetches : Nat
deriving DecidableEq, Repr

/-- `if max_reviews and len(raw_reviews) >= max_reviews` (line 1908):
`none` models `max_reviews=None`; `some 0` is falsy in Python, so a zero
limit disables the cap. -/
def capReached (cap : Option Nat) (n : Nat) : Bool :=
  match cap with
  | none => false
  | some k => decide (k ≠ 0 ∧ k ≤ n)

/-- The page loop of `parse_product_reviews` (lines 1889-1920).  The
remaining pages of the listing are the list argument (head = page the
browser currently shows); reaching the end of the list models
`_navigate_to_next_reviews_page` failing.  Per iteration, in source
order: collect the page, extend `raw_reviews`, break on an empty page,
break on the cap, break when navigation fails, else continue. -/
def parseLoop (pid : String) (ts : Nat) (now : PDate) (cap : Option Nat) :
    List PageModel → List Review → Nat → TraversalState
  | [], acc, n => ⟨acc, .noNextPage, n⟩
  | pg :: rest, acc, n =>
    let pr := collect_reviews_from_page pid ts now pg
    let acc2 := acc ++ pr
    if pr = [] then
      ⟨acc2, if pg.noReviewsIndicator then .exhausted else .noRecordsOnPage, n + 1⟩
    else if capReached cap acc2.length then ⟨acc2, .limitReached, n + 1⟩
    else parseLoop pid ts now cap rest acc2 (n + 1)

/-- `re.search(r'/product/.*?-(\d+)/?', url)`, first pattern of
`_extract_product_id` (line 34).  A match starts at the leftmost
occurrence of `/product/`; if no hyphen-digit pair follows that
occurrence, none follows any later occurrence either, so scanning after
the first occurrence is exact.  The helper finds the suffix after the
first occurrence of a literal. -/
def findSubSuffix (pat : List Char) : List Char → Option (List Char)
  | [] => if pat = [] then some [] else none
  | c :: t =>
    if pat.isPrefixOf (c :: t) then some ((c :: t).drop pat.length)
    else findSubSuffix pat t

/-- Lazy `.*?-(\d+)` scan: the first `-` that is immediately followed by
a digit wins, and the captured group is the maximal digit run. -/
def hyphenDigits : List Char → Option (List Char)
  | [] => none
  | c :: t =>
    if c == '-' then
      match t with
      | d :: _ => if isDigitCh d then some (t.takeWhile isDigitCh) else hyphenDigits t
      | [] => none
    else hyphenDigits t

/-- First pattern of `_extract_product_id`. -/
def productPathId (url : String) : Option String :=
  match findSubSuffix "/product/".data url.data with
  | some rest => (hyphenDigits rest).map List.asString
  | none => none

/-- `re.search(r'id=(\d+)', url)`: leftmost occurrence of `id=`
immediately followed by at least one digit; captures the maximal digit
run. -/
def idParamScan : List Char → Option (List Char)
  | [] => none
  | c :: t =>
    if ("id=".data).isPrefixOf (c :: t) then
      match (c :: t).drop 3 with
      | d :: ds =>
        if isDigitCh d then some ((d :: ds).takeWhile isDigitCh) else idParamScan t
      | [] => idParamScan t
    else idParamScan t

/-- Second pattern of `_extract_product_id` (line 39). -/
def idParamId (url : String) : Option String :=
  (idParamScan url.data).map List.asString

/-- `OzonReviewParser._extract_product_id` (lines 23-43). -/
def extract_product_id (url : String) : Option String :=
  match productPathId url with
  | some pid => some pid
  | none => idParamId url

/-- Result of one product traversal: the returned review list and the
number of page fetches performed. -/
structure ParseOutcome where
  reviews : List Review
  fetches : Nat
deriving DecidableEq, Repr

/-- `OzonReviewParser.parse_product_reviews` (lines 1804-1954): resolve
the product id (an unresolvable URL returns `[]` before the browser is
even initialized, lines 1829-1831, hence zero page fetches); run the
page loop; apply the incremental filter to the raw collection.  The
watermark reads of lines 1840-1841 are supplied as arguments; the final
flush (`self.db.save_reviews`, line 1949) is modelled by applying
`save_reviews` to the returned list, and the listing is assumed
reachable (the collaborator's navigation concerns). -/
def parse_product_reviews (now : PDate) (ts : Nat) (url : String)
    (pages : List PageModel) (cap : Option Nat) (incremental : Bool)
    (last_review_date : Option String) (last_review_ids : List String) :
    ParseOutcome :=
  match extract_product_id url with
  | none => ⟨[], 0⟩
  | some pid =>
    let tr := parseLoop pid ts now cap pages [] 0
    ⟨filterIncremental now incremental last_review_date last_review_ids tr.raw,
     tr.fetches⟩

/-- Per-product metadata record of `ReviewsStorage`
(json_storage.py), with the source's key names.  `none` models an
absent dictionary key; `last_review_ids` defaults to `[]` exactly as
the getter does. -/
structure ProductMeta where
  last_review_date : Option String
  last_review_ids : List String
  total_reviews : Option Nat
deriving DecidableEq, Repr

/-- Fresh metadata entry (`metadata[product_id] = {}`). -/
def ProductMeta.init : ProductMeta := ⟨none, [], none⟩

/-- The id-window merge of `ReviewsStorage.update_product_metadata`
(json_storage.py lines 84-98): `existing_ids = set(stored)`, insert each
non-empty new id not already present, then
`list(existing_ids)[-20:]`.  A Python `set` is unordered, so the order
in which `list(...)` enumerates it is not determined by the program; the
`setOrder` parameter stands for the enumeration CPython happens to use,
an arbitrary permutation of the set's elements. -/
def update_ids (setOrder : List String → List String)
    (stored newIds : List String) : List String :=
  let merged := newIds.foldl
    (fun acc i => if i ≠ "" ∧ i ∉ acc then acc ++ [i] else acc) stored.dedup
  let l := setOrder merged
  l.drop (l.length - 20)

/-- `ReviewsStorage.update_product_metadata` (lines 61-108) for one
product's entry, with the single-string `last_review_ids` argument that
`save_review` passes (the code wraps a bare string into a one-element
list).  A falsy date or id argument leaves the corresponding field
unchanged; `total_reviews` is updated whenever it `is not None`.  The
`last_parsed` timestamp write (line 104) carries no information the
claims consult and is omitted. -/
def update_product_metadata (setOrder : List String → List String)
    (meta : ProductMeta) (last_review_date : Option String)
    (last_review_id : Option String) (total_reviews : Option Nat) :
    ProductMeta :=
  let m1 := if truthyStr last_review_date then
              { meta with last_review_date := last_review_date }
            else meta
  let m2 := match last_review_id with
            | some i =>
              if i ≠ "" then
                { m1 with last_review_ids := update_ids setOrder m1.last_review_ids [i] }
              else m1
            | none => m1
  match total_reviews with
  | some t => { m2 with total_reviews := some t }
  | none => m2

/-- One product's slice of `ReviewsStorage`: the review file contents
and the product's metadata entry (the storage keys every review by
`product_id`; the claims concern a single product's state). -/
structure Store where
  reviews : List Review
  meta : ProductMeta
deriving DecidableEq, Repr

/-- Empty storage for a product: no review file, no metadata entry. -/
def Store.init : Store := ⟨[], ProductMeta.init⟩

/-- `ReviewsStorage.save_review` (lines 136-171): skip if a stored
review already carries the same `review_id`; otherwise append and, when
the review has both a `date` and a `review_id` key, update the
metadata with this review's date, id, and the new total.  The
`saved_at` timestamp (line 152) carries no information the claims
consult.  Returns the updated store and the saved/duplicate flag. -/
def save_review (setOrder : List String → List String) (st : Store)
    (r : Review) : Store × Bool :=
  if ∃ x ∈ st.reviews, x.review_id = r.review_id then (st, false)
  else
    let reviews2 := st.reviews ++ [r]
    match r.date with
    | some _ =>
      ({ reviews := reviews2,
         meta := update_product_metadata setOrder st.meta r.date
                   (some r.review_id) (some reviews2.length) }, true)
    | none => ({ st with reviews := reviews2 }, true)

/-- `ReviewsStorage.save_reviews` (lines 173-183), state part. -/
def save_reviews (setOrder : List String → List String) (st : Store)
    (rs : List Review) : Store :=
  rs.foldl (fun s r => (save_review setOrder s r).1) st

/-- `ReviewsStorage.get_last_review_date` (lines 110-117). -/
def get_last_review_date (st : Store) : Option String :=
  st.meta.last_review_date

/-- `ReviewsStorage.get_last_review_ids` (lines 119-134). -/
def get_last_review_ids (st : Store) : List String :=
  st.meta.last_review_ids

/-- `ReviewsStorage.get_product_reviews` (lines 185-207), with the
product already resolved: `return reviews[:limit] if limit else
reviews` — a falsy limit (`None` or `0`) returns the whole list.  The
repository only ever passes non-negative limits. -/
def get_product_reviews (st : Store) (limit : Option Nat) : List Review :=
  match limit with
  | none => st.reviews
  | some k => if k = 0 then st.reviews else st.reviews.take k

/-- Outcome of one `parse_product_reviews` call as seen by the run
coordinator: the returned list, or an exception escaping the call
(browser initialization, storage I/O, ...). -/
inductive CrawlOutcome where
  | ok (reviews : List Review)
  | raised
deriving DecidableEq, Repr

/-- Count recorded in the summary for one outcome: the accepted record
count on success, zero when the per-product exception was caught. -/
def outcomeCount : CrawlOutcome → Nat
  | .ok rs => rs.length
  | .raised => 0

/-- Python dict assignment `results[url] = v`: replace in place when the
key exists, append otherwise. -/
def dictInsert : List (String × Nat) → String → Nat → List (String × Nat)
  | [], k, v => [(k, v)]
  | (k1, v1) :: t, k, v =>
    if k1 = k then (k, v) :: t else (k1, v1) :: dictInsert t k v

/-- Python dict lookup `results[url]`. -/
def dictLookup : List (String × Nat) → String → Option Nat
  | [], _ => none
  | (k1, v1) :: t, k => if k1 = k then some v1 else dictLookup t k

/-- Loop body of `OzonReviewParser.parse_multiple_products` (lines
2036-2059): each URL's crawl runs inside `try/except`; an exception is
converted into a zero entry and iteration continues. -/
def parseMultipleFrom (acc : List (String × Nat)) :
    List (String × CrawlOutcome) → List (String × Nat)
  | [] => acc
  | (u, oc) :: rest => parseMultipleFrom (dictInsert acc u (outcomeCount oc)) rest

/-- `OzonReviewParser.parse_multiple_products` (lines 2036-2059) over
the per-URL crawl outcomes. -/
def parse_multiple_products (runs : List (String × CrawlOutcome)) :
    List (String × Nat) :=
  parseMultipleFrom [] runs

/-- Total number of records the pages would yield (a bookkeeping
quantity for the termination/cap statements, not a source function). -/
def collectLens (pid : String) (ts : Nat) (now : PDate) : List PageModel → Nat
  | [] => 0
  | pg :: rest =>
    (collect_reviews_from_page pid ts now pg).length + collectLens pid ts now rest

/-- Largest single-page yield among the given pages. -/
def collectMax (pid : String) (ts : Nat) (now : PDate) : List PageModel → Nat
  | [] => 0
  | pg :: rest =>
    max (collect_reviews_from_page pid ts now pg).length (collectMax pid ts now rest)

/-- Shape predicate written from the claim's words (not from the code):
the URL ends in a `-<digits>/` segment. -/
def specTrailingDigitsSegment (u : String) : Bool :=
  match u.data.reverse with
  | '/' :: rest =>
    let ds := rest.takeWhile isDigitCh
    decide (ds ≠ []) &&
      (match rest.drop ds.length with
       | '-' :: _ => true
       | _ => false)
  | _ => false

/-- Shape predicate written from the claim's words (not from the code):
the URL carries an `id=<digits>` query parameter somewhere. -/
def specIdParam : List Char → Bool
  | [] => false
  | c :: t =>
    (("id=".data).isPrefixOf (c :: t) &&
      (match (c :: t).drop 3 with
       | d :: _ => isDigitCh d
       | [] => false)) || specIdParam t

/-!  Concrete instances used by counterexamples and evaluations. -/

/-- A fixed "current date" for closed evaluations. -/
def nowRef : PDate := ⟨2026, 10, 12⟩

/-- A product URL both patterns of `_extract_product_id` resolve the
canonical way. -/
def urlRef : String := "https://www.ozon.ru/product/item-name-123456/"

/-- Twenty-one reviews sharing one publication date, with distinct
stable ids: one more review than the id-window capacity. -/
def c1Reviews : List Review :=
  (List.range 21).map
    (fun i => ⟨"r" ++ toString (i + 1), some "10.01.2024", "great product overall"⟩)

/-- A single listing page carrying the twenty-one reviews of
`c1Reviews`, each element exposing a stable `data-review-uuid`. -/
def c1Page : PageModel :=
  ⟨false, c1Reviews.map (fun r => ⟨some r.review_id, r.text, r.date, false⟩)⟩

/-- Watermark store state after the first (full) crawl of `c1Page` is
flushed, with the set-enumeration order equal to insertion order. -/
def c1Store : Store :=
  save_reviews (fun l => l) Store.init
    (parse_product_reviews nowRef 0 urlRef [c1Page] none false none []).reviews

/-- The second, incremental run of the identical crawl against the
unchanged source, reading the flushed watermark. -/
def c1SecondRun : ParseOutcome :=
  parse_product_reviews nowRef 0 urlRef [c1Page] none true
    (get_last_review_date c1Store) (get_last_review_ids c1Store)

/-- A full id window: twenty distinct ids, `"a1"` the oldest. -/
def c3OldIds : List String := (List.range 20).map (fun i => "a" ++ toString (i + 1))

/-- Metadata update at a full window: one new id `"b0"` arrives while
the set enumeration happens to list the newcomer first (Python sets are
unordered, so this enumeration is as legitimate as any other). -/
def c3Updated : ProductMeta :=
  update_product_metadata (fun l => l.reverse)
    ⟨some "09.01.2024", c3OldIds, some 20⟩
    (some "11.01.2024") (some "b0") (some 21)

/-- A review element whose text cascade found nothing (`text = ""`) but
which parses without raising. -/
def c4Element : RawElement := ⟨some "rv-empty", "", some "01.02.2025", false⟩

/-- A page holding only the empty-text element. -/
def c4Page : PageModel := ⟨false, [c4Element]⟩

/-- A URL matching neither claimed shape: no trailing `-<digits>/`
segment, no `id=<digits>` parameter — yet `-12` follows `/product/`. -/
def c8BadUrl : String := "https://www.ozon.ru/product/item-12abc"

/-- A one-review page used to show the traversal of `c8BadUrl`
proceeds and fetches. -/
def c8Page : PageModel := ⟨false, [⟨some "x1", "good sturdy build", some "01.02.2025", false⟩]⟩

/-!  Claim theorems. -/

/-- C7: the date normalization of `_is_newer_review`'s `parse_date`
tries `DD.MM.YYYY`, Russian long-form month names, ISO-8601 and
`DD/MM/YYYY` in that order and falls back to "now" on total failure;
`"30 марта 2025"` parses to 2025-03-30 and `"01.02.2025"` to
2025-02-01 (day-month-year, not month-day-year). -/
theorem C7_date_format_cascade (now : PDate) :
    parse_date now "30 марта 2025" = .ok ⟨2025, 3, 30⟩ ∧
    parse_date now "01.02.2025" = .ok ⟨2025, 2, 1⟩ ∧
    parse_date now "2025-04-03" = .ok ⟨2025, 4, 3⟩ ∧
    parse_date now "03/04/2025" = .ok ⟨2025, 4, 3⟩ ∧
    parseDateCore "скоро будет" = none ∧
    parse_date now "скоро будет" = .ok now :=
  ⟨rfl, rfl, rfl, rfl, rfl, rfl⟩

/-- Witness for C7 at a fixed current date. -/
theorem C7_date_format_cascade_witness :
    parse_date nowRef "30 марта 2025" = .ok ⟨2025, 3, 30⟩ ∧
    parse_date nowRef "01.02.2025" = .ok ⟨2025, 2, 1⟩ ∧
    parse_date nowRef "2025-04-03" = .ok ⟨2025, 4, 3⟩ ∧
    parse_date nowRef "03/04/2025" = .ok ⟨2025, 4, 3⟩ ∧
    parseDateCore "скоро будет" = none ∧
    parse_date nowRef "скоро будет" = .ok nowRef :=
  C7_date_format_cascade nowRef

/-- C10: `get_product_reviews` truncates to `limit` records when the
limit is a positive integer, and returns the whole stored list when the
limit is `None` or `0` (falsy limits disable truncation). -/
theorem C10_limit_truncation (st : Store) (k : Nat) (hk : 0 < k) :
    get_product_reviews st (some k) = st.reviews.take k ∧
    (get_product_reviews st (some k)).length ≤ k ∧
    get_product_reviews st none = st.reviews ∧
    get_product_reviews st (some 0) = st.reviews := by
  have hne : ¬(k = 0) := by omega
  refine ⟨by simp [get_product_reviews, hne], ?_, rfl, by simp [get_product_reviews]⟩
  simp only [get_product_reviews, if_neg hne]
  exact List.length_take_le k st.reviews

/-- Witness for C10 on a two-review store and limit 1. -/
theorem C10_limit_truncation_witness :
    get_product_reviews ⟨[⟨"w1", some "01.02.2025", "ta"⟩, ⟨"w2", none, "tb"⟩], ProductMeta.init⟩ (some 1) =
      [⟨"w1", some "01.02.2025", "ta"⟩] ∧
    (get_product_reviews ⟨[⟨"w1", some "01.02.2025", "ta"⟩, ⟨"w2", none, "tb"⟩], ProductMeta.init⟩ (some 1)).length ≤ 1 ∧
    get_product_reviews ⟨[⟨"w1", some "01.02.2025", "ta"⟩, ⟨"w2", none, "tb"⟩], ProductMeta.init⟩ none =
      [⟨"w1", some "01.02.2025", "ta"⟩, ⟨"w2", none, "tb"⟩] ∧
    get_product_reviews ⟨[⟨"w1", some "01.02.2025", "ta"⟩, ⟨"w2", none, "tb"⟩], ProductMeta.init⟩ (some 0) =
      [⟨"w1", some "01.02.2025", "ta"⟩, ⟨"w2", none, "tb"⟩] :=
  C10_limit_truncation ⟨[⟨"w1", some "01.02.2025", "ta"⟩, ⟨"w2", none, "tb"⟩], ProductMeta.init⟩ 1 (by decide)

/-- C3: evaluation of `update_product_metadata` at a full twenty-id
window receiving the new id `"b0"`, under a set-enumeration order that
lists the newcomer first.  The capacity bound (at most 20 entries)
holds, but the evicted entry is the newest id `"b0"` while the oldest
id `"a1"` is kept — the window does not keep the most-recently-seen
ids, contradicting the claim and the code's own comment
("Оставляем только 20 последних ID"). -/
theorem C3_window_eviction_eval :
    c3Updated.last_review_ids.length = 20 ∧
    "b0" ∉ c3Updated.last_review_ids ∧
    "a1" ∈ c3Updated.last_review_ids := by decide

/-- C4 counterexample: an element whose text cascade produced the empty
string is not dropped by normalization — `_collect_reviews_from_page`
returns its record, empty text and all, so it does reach the
deduplication/incremental filter, contradicting the claim that no such
record appears in the collected output of a page. -/
theorem C4_counterexample :
    collect_reviews_from_page "123456" 0 nowRef c4Page =
      [⟨"rv-empty", some "01.02.2025", ""⟩] ∧
    (⟨"rv-empty", some "01.02.2025", ""⟩ : Review).text.length < 10 := by decide

/-- Per-page totality of `_parse_review`: an element is dropped exactly
when its processing raises; the record count never depends on texts. -/
theorem parse_review_drop_count (pid : String) (ts : Nat) (now : PDate) :
    ∀ els : List RawElement,
      (els.filterMap (parse_review pid ts now)).length =
        (els.filter (fun e => e.raisesError = false)).length := by
  intro els
  induction els with
  | nil => rfl
  | cons e t ih =>
    cases he : e.raisesError <;>
      simp [List.filterMap_cons, List.filter_cons, parse_review, he, ih]

/-- C4 amended: normalization drops a record only when an exception
escapes `_parse_review`; a record with empty or short text is returned
with its text unchanged and is counted in the page's collected output,
so empty/short-text records do reach the incremental filter. -/
theorem C4_amended_no_text_rejection (pid : String) (ts : Nat) (now : PDate)
    (el : RawElement) (pg : PageModel)
    (hok : el.raisesError = false) (hind : pg.noReviewsIndicator = false) :
    (∃ r, parse_review pid ts now el = some r ∧ r.text = el.text) ∧
    (collect_reviews_from_page pid ts now pg).length =
      (pg.elements.filter (fun e => e.raisesError = false)).length := by
  constructor
  · refine ⟨⟨(match el.reviewUuid with
              | some u => u
              | none => pid ++ "_" ++ toString ts),
             some (match el.dateText with
                   | some d => d
                   | none => nowDateStr now),
             el.text⟩, ?_, rfl⟩
    simp [parse_review, hok]
  · simp only [collect_reviews_from_page, hind, if_neg Bool.false_ne_true]
    exact parse_review_drop_count pid ts now pg.elements

/-- Witness for C4's amended statement on the empty-text element. -/
theorem C4_amended_no_text_rejection_witness :
    (∃ r, parse_review "123456" 0 nowRef c4Element = some r ∧ r.text = c4Element.text) ∧
    (collect_reviews_from_page "123456" 0 nowRef c4Page).length =
      (c4Page.elements.filter (fun e => e.raisesError = false)).length :=
  C4_amended_no_text_rejection "123456" 0 nowRef c4Element c4Page rfl rfl

/-- C8 counterexample: the URL `c8BadUrl` matches neither claimed shape
(no trailing `-<digits>/` segment, no `id=<digits>` parameter), yet
`_extract_product_id` returns `"12"` and the traversal proceeds,
fetching a page and returning records instead of failing with an empty
result. -/
theorem C8_counterexample :
    specTrailingDigitsSegment c8BadUrl = false ∧
    specIdParam c8BadUrl.data = false ∧
    extract_product_id c8BadUrl = some "12" ∧
    (parse_product_reviews nowRef 0 c8BadUrl [c8Page] none false none []).reviews ≠ [] ∧
    (parse_product_reviews nowRef 0 c8BadUrl [c8Page] none false none []).fetches = 1 := by
  decide

/-- Truthiness of an optional string, unfolded. -/
theorem truthyStr_iff (o : Option String) :
    truthyStr o = true ↔ ∃ s, o = some s ∧ s ≠ "" := by
  cases o <;> simp [truthyStr]

/-- C2: with a present baseline whose date parses and does not lie in
the future, the per-record filter rejects a record exactly when its id
sits in the recent-id window, or its date parses via a known format
(`dateUnreliable = false`) to a day strictly before the baseline; a
record with an unparseable date is compared as "now" and accepted.  On
the spec's concrete scenario — baseline 2024-01-10 with window
`{r1, r2}`, records r1 (2024-01-09), r3 (2024-01-12) and r4 with an
unreliable date — exactly `[r3, r4]` survive. -/
theorem C2_incremental_filter_rule (now : PDate) :
    (∀ (ld : PDate) (lds : String) (ids : List String) (r : Review) (ds : String),
        parseDateCore lds = some (.ok ld) →
        PDate.ble ld now = true →
        r.date = some ds →
        (is_newer_review now r (some lds) ids = false ↔
          r.review_id ∈ ids ∨
            ∃ rd, parseDateCore ds = some (.ok rd) ∧ PDate.ble ld rd = false)) ∧
    (PDate.ble ⟨2024, 1, 10⟩ now = true →
      filterIncremental now true (some "10.01.2024") ["r1", "r2"]
        [⟨"r1", some "09.01.2024", "t1"⟩, ⟨"r3", some "12.01.2024", "t3"⟩,
         ⟨"r4", some "вчера", "t4"⟩] =
      [⟨"r3", some "12.01.2024", "t3"⟩, ⟨"r4", some "вчера", "t4"⟩]) := by
  constructor
  · intro ld lds ids r ds hlds hnow hr
    have hne : lds ≠ "" := by
      intro he
      rw [he, show parseDateCore "" = none from rfl] at hlds
      exact Option.noConfusion hlds
    have hplds : parse_date now lds = .ok ld := by
      unfold parse_date
      rw [hlds]
    by_cases hid : ids ≠ [] ∧ r.review_id ∈ ids
    · simp only [is_newer_review, if_neg hne, if_pos hid]
      simp [hid.2]
    · have hmem : r.review_id ∉ ids := fun hm => hid ⟨List.ne_nil_of_mem hm, hm⟩
      cases hcore : parseDateCore ds with
      | none =>
        have hpds : parse_date now ds = .ok now := by
          unfold parse_date
          rw [hcore]
        simp only [is_newer_review, if_neg hne, if_neg hid, hr, hpds, hplds]
        simp [hnow, hmem, hcore]
      | some e =>
        cases e with
        | ok rd =>
          have hpds : parse_date now ds = .ok rd := by
            unfold parse_date
            rw [hcore]
          simp only [is_newer_review, if_neg hne, if_neg hid, hr, hpds, hplds]
          simp [hmem, hcore]
        | error u =>
          have hpds : parse_date now ds = .error u := by
            unfold parse_date
            rw [hcore]
          simp only [is_newer_review, if_neg hne, if_neg hid, hr, hpds, hplds]
          simp [hmem, hcore]
  · intro hnow2
    have h1 : is_newer_review now ⟨"r1", some "09.01.2024", "t1"⟩
        (some "10.01.2024") ["r1", "r2"] = false := rfl
    have h3 : is_newer_review now ⟨"r3", some "12.01.2024", "t3"⟩
        (some "10.01.2024") ["r1", "r2"] = true := rfl
    have h4 : is_newer_review now ⟨"r4", some "вчера", "t4"⟩
        (some "10.01.2024") ["r1", "r2"] = PDate.ble ⟨2024, 1, 10⟩ now := rfl
    have hcond : filterIncremental now true (some "10.01.2024") ["r1", "r2"]
        [⟨"r1", some "09.01.2024", "t1"⟩, ⟨"r3", some "12.01.2024", "t3"⟩,
         ⟨"r4", some "вчера", "t4"⟩] =
        List.filter (fun r => is_newer_review now r (some "10.01.2024") ["r1", "r2"])
          [⟨"r1", some "09.01.2024", "t1"⟩, ⟨"r3", some "12.01.2024", "t3"⟩,
           ⟨"r4", some "вчера", "t4"⟩] := by
      unfold filterIncremental
      rw [if_pos ⟨rfl, by decide, by decide⟩]
    rw [hcond]
    simp [List.filter_cons, h1, h3, h4, hnow2]

/-- Witness for C2: the per-record rule at a concrete record and the
scenario at a fixed current date. -/
theorem C2_incremental_filter_rule_witness :
    (is_newer_review nowRef ⟨"rx", some "09.01.2024", "t"⟩
        (some "10.01.2024") ["r1"] = false ↔
      (⟨"rx", some "09.01.2024", "t"⟩ : Review).review_id ∈ ["r1"] ∨
        ∃ rd, parseDateCore "09.01.2024" = some (.ok rd) ∧
          PDate.ble ⟨2024, 1, 10⟩ rd = false) ∧
    filterIncremental nowRef true (some "10.01.2024") ["r1", "r2"]
        [⟨"r1", some "09.01.2024", "t1"⟩, ⟨"r3", some "12.01.2024", "t3"⟩,
         ⟨"r4", some "вчера", "t4"⟩] =
      [⟨"r3", some "12.01.2024", "t3"⟩, ⟨"r4", some "вчера", "t4"⟩] :=
  ⟨(C2_incremental_filter_rule nowRef).1 ⟨2024, 1, 10⟩ "10.01.2024" ["r1"]
      ⟨"rx", some "09.01.2024", "t"⟩ "09.01.2024" rfl (by decide) rfl,
   (C2_incremental_filter_rule nowRef).2 (by decide)⟩

/-- The cap test only gets easier for shorter raw collections. -/
theorem capReached_mono (cap : Option Nat) (m1 m2 : Nat) (h : m1 ≤ m2)
    (h2 : capReached cap m2 = false) : capReached cap m1 = false := by
  cases cap with
  | none => rfl
  | some k =>
    simp only [capReached, decide_eq_false_iff_not] at h2 ⊢
    omega

/-- Page loop under an active cap: while every page yields records and
the total available reaches the cap, the loop exits at the cap with at
most one page of overshoot. -/
theorem parseLoop_cap_go (pid : String) (ts : Nat) (now : PDate) (K : Nat) :
    ∀ (pages : List PageModel) (acc : List Review) (n : Nat),
      (∀ pg ∈ pages, collect_reviews_from_page pid ts now pg ≠ []) →
      0 < K →
      acc.length < K →
      K ≤ acc.length + collectLens pid ts now pages →
      (parseLoop pid ts now (some K) pages acc n).reason = .limitReached ∧
      K ≤ (parseLoop pid ts now (some K) pages acc n).raw.length ∧
      (parseLoop pid ts now (some K) pages acc n).raw.length <
        K + collectMax pid ts now pages := by
  intro pages
  induction pages with
  | nil =>
    intro acc n hne hK hacc hsum
    exfalso
    simp [collectLens] at hsum
    omega
  | cons pg rest ih =>
    intro acc n hne hK hacc hsum
    have hpr : collect_reviews_from_page pid ts now pg ≠ [] :=
      hne pg (List.mem_cons_self pg rest)
    have hla : (acc ++ collect_reviews_from_page pid ts now pg).length =
        acc.length + (collect_reviews_from_page pid ts now pg).length := by
      simp
    have hsum2 : K ≤ acc.length + ((collect_reviews_from_page pid ts now pg).length +
        collectLens pid ts now rest) := by
      simpa [collectLens] using hsum
    have hmx : (collect_reviews_from_page pid ts now pg).length ≤
        collectMax pid ts now (pg :: rest) := by
      simp [collectMax]
    have hmxr : collectMax pid ts now rest ≤ collectMax pid ts now (pg :: rest) := by
      simp [collectMax]
    by_cases hcap : K ≤ (acc ++ collect_reviews_from_page pid ts now pg).length
    · have hc : capReached (some K)
          (acc ++ collect_reviews_from_page pid ts now pg).length = true := by
        simp only [capReached, decide_eq_true_eq]
        omega
      have hstep : parseLoop pid ts now (some K) (pg :: rest) acc n =
          ⟨acc ++ collect_reviews_from_page pid ts now pg, .limitReached, n + 1⟩ := by
        simp only [parseLoop, if_neg hpr, if_pos hc]
      rw [hstep]
      refine ⟨rfl, hcap, ?_⟩
      show (acc ++ collect_reviews_from_page pid ts now pg).length <
        K + collectMax pid ts now (pg :: rest)
      omega
    · have hc : capReached (some K)
          (acc ++ collect_reviews_from_page pid ts now pg).length = false := by
        simp only [capReached, decide_eq_false_iff_not]
        omega
      have hstep : parseLoop pid ts now (some K) (pg :: rest) acc n =
          parseLoop pid ts now (some K) rest
            (acc ++ collect_reviews_from_page pid ts now pg) (n + 1) := by
        simp only [parseLoop, if_neg hpr, if_neg (ne_true_of_eq_false hc)]
      rw [hstep]
      have happly := ih (acc ++ collect_reviews_from_page pid ts now pg) (n + 1)
        (fun pg2 h2 => hne pg2 (List.mem_cons_of_mem pg h2)) hK
        (by omega) (by omega)
      exact ⟨happly.1, happly.2.1, by omega⟩

/-- C5: when `maxReviews = K` is set (positive) and the pages hold at
least `K` records in total, with every page yielding, the traversal
stops with `limitReached` as soon as the raw collected length reaches
`K`, overshooting by less than one page's worth — and the cap is
checked against the raw collection, the incremental filter being
applied only afterwards to what the capped loop returned. -/
theorem C5_cap_enforcement (now : PDate) (ts : Nat) (url pid : String) (K : Nat)
    (pages : List PageModel) (inc : Bool) (ld : Option String) (ids : List String)
    (hurl : extract_product_id url = some pid)
    (hne : ∀ pg ∈ pages, collect_reviews_from_page pid ts now pg ≠ [])
    (hK : 0 < K)
    (hsum : K ≤ collectLens pid ts now pages) :
    (parseLoop pid ts now (some K) pages [] 0).reason = .limitReached ∧
    K ≤ (parseLoop pid ts now (some K) pages [] 0).raw.length ∧
    (parseLoop pid ts now (some K) pages [] 0).raw.length <
      K + collectMax pid ts now pages ∧
    (parse_product_reviews now ts url pages (some K) inc ld ids).reviews =
      filterIncremental now inc ld ids (parseLoop pid ts now (some K) pages [] 0).raw := by
  have h := parseLoop_cap_go pid ts now K pages [] 0 hne hK
    (by simpa using hK) (by simpa using hsum)
  exact ⟨h.1, h.2.1, h.2.2, by simp [parse_product_reviews, hurl]⟩

/-- Witness for C5: one page of one record under cap 1. -/
theorem C5_cap_enforcement_witness :
    (parseLoop "123456" 0 nowRef (some 1)
        [⟨false, [⟨some "w1", "sturdy and compact", some "01.02.2025", false⟩]⟩] [] 0).reason =
      .limitReached ∧
    1 ≤ (parseLoop "123456" 0 nowRef (some 1)
        [⟨false, [⟨some "w1", "sturdy and compact", some "01.02.2025", false⟩]⟩] [] 0).raw.length ∧
    (parseLoop "123456" 0 nowRef (some 1)
        [⟨false, [⟨some "w1", "sturdy and compact", some "01.02.2025", false⟩]⟩] [] 0).raw.length <
      1 + collectMax "123456" 0 nowRef
        [⟨false, [⟨some "w1", "sturdy and compact", some "01.02.2025", false⟩]⟩] ∧
    (parse_product_reviews nowRef 0 urlRef
        [⟨false, [⟨some "w1", "sturdy and compact", some "01.02.2025", false⟩]⟩]
        (some 1) false none []).reviews =
      filterIncremental nowRef false none []
        (parseLoop "123456" 0 nowRef (some 1)
          [⟨false, [⟨some "w1", "sturdy and compact", some "01.02.2025", false⟩]⟩] [] 0).raw :=
  C5_cap_enforcement nowRef 0 urlRef "123456" 1
    [⟨false, [⟨some "w1", "sturdy and compact", some "01.02.2025", false⟩]⟩]
    false none [] rfl (by decide) (by decide) (by decide)

/-- Page loop reaching the explicit "no reviews" page: all yielding
pages are fetched, then the indicator page, and the loop stops on the
indicator-caused empty page. -/
theorem parseLoop_exhaust_go (pid : String) (ts : Nat) (now : PDate) (cap : Option Nat)
    (ind : PageModel) (hind : ind.noReviewsIndicator = true) :
    ∀ (normal : List PageModel) (acc : List Review) (n : Nat),
      (∀ pg ∈ normal, collect_reviews_from_page pid ts now pg ≠ []) →
      capReached cap (acc.length + collectLens pid ts now normal) = false →
      (parseLoop pid ts now cap (normal ++ [ind]) acc n).reason = .exhausted ∧
      (parseLoop pid ts now cap (normal ++ [ind]) acc n).fetches = n + normal.length + 1 := by
  intro normal
  induction normal with
  | nil =>
    intro acc n hne hcap
    have hcol : collect_reviews_from_page pid ts now ind = [] := by
      simp [collect_reviews_from_page, hind]
    constructor <;> simp [parseLoop, hcol, hind]
  | cons pg rest ih =>
    intro acc n hne hcap
    have hpr : collect_reviews_from_page pid ts now pg ≠ [] :=
      hne pg (List.mem_cons_self pg rest)
    have hla : (acc ++ collect_reviews_from_page pid ts now pg).length =
        acc.length + (collect_reviews_from_page pid ts now pg).length := by
      simp
    have hcap2 : capReached cap ((acc ++ collect_reviews_from_page pid ts now pg).length +
        collectLens pid ts now rest) = false := by
      have heq : (acc ++ collect_reviews_from_page pid ts now pg).length +
          collectLens pid ts now rest =
          acc.length + collectLens pid ts now (pg :: rest) := by
        simp [collectLens, hla]
        omega
      rw [heq]
      exact hcap
    have hc : capReached cap (acc ++ collect_reviews_from_page pid ts now pg).length = false :=
      capReached_mono cap _ _ (by omega) hcap2
    have hstep : parseLoop pid ts now cap ((pg :: rest) ++ [ind]) acc n =
        parseLoop pid ts now cap (rest ++ [ind])
          (acc ++ collect_reviews_from_page pid ts now pg) (n + 1) := by
      simp only [List.cons_append, parseLoop, if_neg hpr, if_neg (ne_true_of_eq_false hc)]
      rfl
    rw [hstep]
    have happly := ih (acc ++ collect_reviews_from_page pid ts now pg) (n + 1)
      (fun pg2 h2 => hne pg2 (List.mem_cons_of_mem pg h2)) hcap2
    refine ⟨happly.1, ?_⟩
    rw [happly.2]
    simp only [List.length_cons]
    omega

/-- C6: for an adapter exposing `P` pages that each yield at least one
record followed by a page showing the explicit "no reviews" indicator,
the loop performs exactly `P + 1` page fetches and stops on the
indicator-triggered empty page (the `exhausted` exit), provided the raw
cap does not fire first. -/
theorem C6_termination (pid : String) (ts : Nat) (now : PDate) (cap : Option Nat)
    (normal : List PageModel) (ind : PageModel)
    (hind : ind.noReviewsIndicator = true)
    (hne : ∀ pg ∈ normal, collect_reviews_from_page pid ts now pg ≠ [])
    (hcap : capReached cap (collectLens pid ts now normal) = false) :
    (parseLoop pid ts now cap (normal ++ [ind]) [] 0).fetches = normal.length + 1 ∧
    (parseLoop pid ts now cap (normal ++ [ind]) [] 0).reason = .exhausted := by
  have h := parseLoop_exhaust_go pid ts now cap ind hind normal [] 0 hne
    (by simpa using hcap)
  exact ⟨by simpa using h.2, h.1⟩

/-- Witness for C6: two yielding pages, then the indicator page. -/
theorem C6_termination_witness :
    (parseLoop "123456" 0 nowRef none
        ([⟨false, [⟨some "w1", "quite decent", some "01.02.2025", false⟩]⟩,
          ⟨false, [⟨some "w2", "arrived broken", some "02.02.2025", false⟩]⟩] ++
         [⟨true, []⟩]) [] 0).fetches = 2 + 1 ∧
    (parseLoop "123456" 0 nowRef none
        ([⟨false, [⟨some "w1", "quite decent", some "01.02.2025", false⟩]⟩,
          ⟨false, [⟨some "w2", "arrived broken", some "02.02.2025", false⟩]⟩] ++
         [⟨true, []⟩]) [] 0).reason = .exhausted :=
  C6_termination "123456" 0 nowRef none
    [⟨false, [⟨some "w1", "quite decent", some "01.02.2025", false⟩]⟩,
     ⟨false, [⟨some "w2", "arrived broken", some "02.02.2025", false⟩]⟩]
    ⟨true, []⟩ rfl (by decide) rfl

/-- Dict assignment then lookup of the same key. -/
theorem dictLookup_dictInsert_self (d : List (String × Nat)) (k : String) (v : Nat) :
    dictLookup (dictInsert d k v) k = some v := by
  induction d with
  | nil => simp [dictInsert, dictLookup]
  | cons p t ih =>
    obtain ⟨k1, v1⟩ := p
    by_cases h : k1 = k
    · simp [dictInsert, h, dictLookup]
    · simp [dictInsert, h, dictLookup, ih]

/-- Dict assignment leaves other keys' lookups unchanged. -/
theorem dictLookup_dictInsert_ne (d : List (String × Nat)) (k k2 : String) (v : Nat)
    (h : k ≠ k2) : dictLookup (dictInsert d k v) k2 = dictLookup d k2 := by
  induction d with
  | nil => simp [dictInsert, dictLookup, h]
  | cons p t ih =>
    obtain ⟨k1, v1⟩ := p
    by_cases h1 : k1 = k
    · simp [dictInsert, h1, dictLookup, h]
    · simp only [dictInsert, if_neg h1]
      by_cases h2 : k1 = k2
      · simp [dictLookup, h2]
      · simp [dictLookup, h2, ih]

/-- URLs not mentioned in the remaining runs keep their summary entry. -/
theorem parseMultipleFrom_untouched :
    ∀ (runs : List (String × CrawlOutcome)) (acc : List (String × Nat)) (u : String),
      u ∉ runs.map Prod.fst →
      dictLookup (parseMultipleFrom acc runs) u = dictLookup acc u := by
  intro runs
  induction runs with
  | nil => intro acc u _; rfl
  | cons p rest ih =>
    obtain ⟨v, oc⟩ := p
    intro acc u hu
    simp only [List.map_cons, List.mem_cons] at hu
    push_neg at hu
    simp only [parseMultipleFrom]
    rw [ih _ u hu.2, dictLookup_dictInsert_ne _ _ _ _ (fun he => hu.1 he.symm)]

/-- C9: the run coordinator's summary maps every input URL to its
accepted record count — zero when that URL's crawl raised — and the
coordinator itself is total: an exception inside one product's crawl is
converted into a zero entry and never escapes, so every later URL is
still processed and present in the summary. -/
theorem C9_error_isolation (runs : List (String × CrawlOutcome))
    (hnd : (runs.map Prod.fst).Nodup) :
    (∀ u oc, (u, oc) ∈ runs →
        dictLookup (parse_multiple_products runs) u = some (outcomeCount oc)) ∧
    (∀ u oc, (u, oc) ∈ runs → oc = .raised →
        dictLookup (parse_multiple_products runs) u = some 0) := by
  have hmain : ∀ (rs : List (String × CrawlOutcome)) (acc : List (String × Nat)),
      (rs.map Prod.fst).Nodup →
      ∀ u oc, (u, oc) ∈ rs →
        dictLookup (parseMultipleFrom acc rs) u = some (outcomeCount oc) := by
    intro rs
    induction rs with
    | nil => intro acc _ u oc h; cases h
    | cons p rest ih =>
      obtain ⟨v, oc1⟩ := p
      intro acc hnd2 u oc hm
      simp only [List.map_cons, List.nodup_cons] at hnd2
      rcases List.mem_cons.mp hm with heq | htail
      · obtain ⟨h1, h2⟩ := Prod.mk.injEq .. ▸ heq
        subst h1
        subst h2
        simp only [parseMultipleFrom]
        rw [parseMultipleFrom_untouched rest _ u hnd2.1]
        exact dictLookup_dictInsert_self acc u (outcomeCount oc)
      · exact ih _ hnd2.2 u oc htail
  refine ⟨hmain runs [] hnd, fun u oc hm hr => ?_⟩
  have := hmain runs [] hnd u oc hm
  rw [hr] at this
  exact this

/-- Witness for C9: one successful crawl, one raising crawl. -/
theorem C9_error_isolation_witness :
    dictLookup (parse_multiple_products
        [("https://www.ozon.ru/product/a-1/", .ok [⟨"w1", some "01.02.2025", "tolerable"⟩]),
         ("https://www.ozon.ru/product/b-2/", .raised)])
      "https://www.ozon.ru/product/a-1/" = some 1 ∧
    dictLookup (parse_multiple_products
        [("https://www.ozon.ru/product/a-1/", .ok [⟨"w1", some "01.02.2025", "tolerable"⟩]),
         ("https://www.ozon.ru/product/b-2/", .raised)])
      "https://www.ozon.ru/product/b-2/" = some 0 :=
  ⟨(C9_error_isolation
      [("https://www.ozon.ru/product/a-1/", .ok [⟨"w1", some "01.02.2025", "tolerable"⟩]),
       ("https://www.ozon.ru/product/b-2/", .raised)] (by decide)).1
      "https://www.ozon.ru/product/a-1/" (.ok [⟨"w1", some "01.02.2025", "tolerable"⟩])
      (by decide),
   (C9_error_isolation
      [("https://www.ozon.ru/product/a-1/", .ok [⟨"w1", some "01.02.2025", "tolerable"⟩]),
       ("https://www.ozon.ru/product/b-2/", .raised)] (by decide)).2
      "https://www.ozon.ru/product/b-2/" .raised (by decide) rfl⟩

/-- An `id=<digits>` occurrence always makes the second extraction
pattern succeed. -/
theorem specIdParam_isSome :
    ∀ cs : List Char, specIdParam cs = true → (idParamScan cs).isSome = true := by
  intro cs
  induction cs with
  | nil => intro h; simp [specIdParam] at h
  | cons c t ih =>
    intro h
    simp only [specIdParam, Bool.or_eq_true, Bool.and_eq_true] at h
    rcases h with ⟨hpre, hd⟩ | htail
    · simp only [idParamScan, hpre, if_pos rfl]
      cases hdrop : (c :: t).drop 3 with
      | nil => rw [hdrop] at hd; simp at hd
      | cons d ds =>
        rw [hdrop] at hd
        simp only at hd
        simp [hd]
    · by_cases hpre : ("id=".data).isPrefixOf (c :: t) = true
      · simp only [idParamScan, if_pos hpre]
        cases hdrop : (c :: t).drop 3 with
        | nil => exact ih htail
        | cons d ds =>
          by_cases hdig : isDigitCh d = true
          · simp [hdig]
          · simp only [if_neg hdig]
            exact ih htail
      · simp only [idParamScan, if_neg hpre]
        exact ih htail

/-- C8 amended: extraction is keyed to the code's two regular
expressions, which are laxer than the claimed URL shapes — any
`-<digits>` occurring after a `/product/` component is accepted, not
only a trailing segment, and an `id=<digits>` parameter is honoured
anywhere; the canonical `/product/...-<digits>/` shape resolves to its
trailing digits.  Only when both patterns fail does the traversal for
that product return an empty result, before any page is fetched, and
other products are unaffected (each crawl takes its own arguments). -/
theorem C8_amended_resolution (now : PDate) (ts : Nat) (url : String)
    (pages : List PageModel) (cap : Option Nat) (inc : Bool)
    (ld : Option String) (ids : List String) :
    (extract_product_id url = none →
      parse_product_reviews now ts url pages cap inc ld ids = ⟨[], 0⟩) ∧
    (specIdParam url.data = true → (extract_product_id url).isSome = true) ∧
    extract_product_id "https://www.ozon.ru/product/item-name-123456/" = some "123456" := by
  refine ⟨?_, ?_, rfl⟩
  · intro h
    simp [parse_product_reviews, h]
  · intro h
    unfold extract_product_id
    cases hp : productPathId url with
    | none =>
      simp only [idParamId]
      have := specIdParam_isSome url.data h
      cases hscan : idParamScan url.data with
      | none => rw [hscan] at this; simp at this
      | some l => simp
    | some pid => simp

/-- Witness for C8's amended statement: a URL with no matching pattern
fails before any fetch; an `id=` URL resolves. -/
theorem C8_amended_resolution_witness :
    parse_product_reviews nowRef 0 "https://example.com/nothing-here" [] none false none [] =
      ⟨[], 0⟩ ∧
    (extract_product_id "https://www.ozon.ru/page?id=98765").isSome = true ∧
    extract_product_id "https://www.ozon.ru/product/item-name-123456/" = some "123456" :=
  ⟨(C8_amended_resolution nowRef 0 "https://example.com/nothing-here" [] none false none []).1
      rfl,
   (C8_amended_resolution nowRef 0 "https://www.ozon.ru/page?id=98765" [] none false none []).2.1
      (by decide),
   (C8_amended_resolution nowRef 0 "https://www.ozon.ru/page?id=98765" [] none false none []).2.2⟩

/-- Inserting one fresh id into a window that stays within capacity:
nothing is evicted, whatever enumeration the set uses. -/
theorem update_ids_small (setOrder : List String → List String)
    (hso : ∀ l, List.Perm (setOrder l) l) (W : List String) (rid : String)
    (hW : W.Nodup) (hmem : rid ∉ W) (hrid : rid ≠ "") (hlen : W.length + 1 ≤ 20) :
    List.Perm (update_ids setOrder W [rid]) (W ++ [rid]) := by
  simp only [update_ids, List.foldl_cons, List.foldl_nil]
  rw [List.dedup_eq_self.mpr hW]
  rw [if_pos ⟨hrid, hmem⟩]
  have hp := hso (W ++ [rid])
  have hlen2 : (setOrder (W ++ [rid])).length = W.length + 1 := by
    rw [hp.length_eq]
    simp
  rw [show (setOrder (W ++ [rid])).length - 20 = 0 by omega, List.drop_zero]
  exact hp

/-- Flushing at most twenty fresh reviews (distinct non-empty ids,
non-empty dates) records all their ids in the window and a truthy
last-review date. -/
theorem save_reviews_window (setOrder : List String → List String)
    (hso : ∀ l, List.Perm (setOrder l) l) :
    ∀ (rs : List Review) (st : Store),
      ((st.reviews ++ rs).map Review.review_id).Nodup →
      (st.reviews ++ rs).length ≤ 20 →
      List.Perm st.meta.last_review_ids (st.reviews.map Review.review_id) →
      (∀ r ∈ rs, r.review_id ≠ "" ∧ ∃ d, r.date = some d ∧ d ≠ "") →
      (save_reviews setOrder st rs).reviews = st.reviews ++ rs ∧
      List.Perm (save_reviews setOrder st rs).meta.last_review_ids
        ((st.reviews ++ rs).map Review.review_id) ∧
      (rs = [] → (save_reviews setOrder st rs).meta.last_review_date =
        st.meta.last_review_date) ∧
      (rs ≠ [] → truthyStr (save_reviews setOrder st rs).meta.last_review_date = true) := by
  intro rs
  induction rs with
  | nil =>
    intro st hnd hlen hperm hall
    exact ⟨by simp [save_reviews], by simpa using hperm, fun _ => rfl,
      fun h => absurd rfl h⟩
  | cons r rest ih =>
    intro st hnd hlen hperm hall
    obtain ⟨hrid, d, hd, hdne⟩ := hall r (List.mem_cons_self r rest)
    have hnd2 : (st.reviews.map Review.review_id ++
        (r.review_id :: rest.map Review.review_id)).Nodup := by
      simpa using hnd
    have hfresh : r.review_id ∉ st.reviews.map Review.review_id := by
      intro hmem
      exact (List.nodup_append.mp hnd2).2.2 hmem (List.mem_cons_self _ _)
    have hWnodup : st.meta.last_review_ids.Nodup :=
      (hperm.nodup_iff).mpr (List.nodup_append.mp hnd2).1
    have hWfresh : r.review_id ∉ st.meta.last_review_ids :=
      fun hm => hfresh (hperm.subset hm)
    have hnotex : ¬ ∃ x ∈ st.reviews, x.review_id = r.review_id := by
      rintro ⟨x, hx, he⟩
      exact hfresh (he ▸ List.mem_map_of_mem Review.review_id hx)
    have hWlen : st.meta.last_review_ids.length = st.reviews.length := by
      rw [hperm.length_eq, List.length_map]
    have hlen20 : st.reviews.length + 1 ≤ 20 := by
      have h20 := hlen
      simp [List.length_append] at h20
      omega
    have hids := update_ids_small setOrder hso st.meta.last_review_ids r.review_id
      hWnodup hWfresh hrid (by omega)
    have htru : truthyStr (some d) = true := by simp [truthyStr, hdne]
    have hstep : (save_review setOrder st r).1 =
        (⟨st.reviews ++ [r],
          ⟨some d, update_ids setOrder st.meta.last_review_ids [r.review_id],
           some (st.reviews ++ [r]).length⟩⟩ : Store) := by
      simp only [save_review, if_neg hnotex, hd]
      simp [update_product_metadata, htru, hrid, hd]
    have h1perm : List.Perm
        (update_ids setOrder st.meta.last_review_ids [r.review_id])
        ((st.reviews ++ [r]).map Review.review_id) := by
      refine hids.trans ?_
      rw [List.map_append]
      exact hperm.append (by simp)
    have hih := ih ⟨st.reviews ++ [r],
        ⟨some d, update_ids setOrder st.meta.last_review_ids [r.review_id],
         some (st.reviews ++ [r]).length⟩⟩
      (by simpa [List.append_assoc] using hnd)
      (by simpa [List.append_assoc] using hlen)
      h1perm
      (fun r2 h2 => hall r2 (List.mem_cons_of_mem r h2))
    have hsv : save_reviews setOrder st (r :: rest) =
        save_reviews setOrder ⟨st.reviews ++ [r],
          ⟨some d, update_ids setOrder st.meta.last_review_ids [r.review_id],
           some (st.reviews ++ [r]).length⟩⟩ rest := by
      simp only [save_reviews, List.foldl_cons, hstep]
    rw [hsv]
    refine ⟨by rw [hih.1]; simp, by simpa [List.append_assoc] using hih.2.1,
      fun h => absurd h (List.cons_ne_nil r rest), fun _ => ?_⟩
    by_cases hrest : rest = []
    · subst hrest
      rw [hih.2.2.1 rfl]
      exact htru
    · exact hih.2.2.2 hrest

/-- C1 amended: re-running the same crawl in incremental mode against an
unchanged source accepts zero records provided the product has at most
20 reviews (the id-window capacity), their stable ids are distinct and
non-empty and their dates present — every record is then rejected by the
id window.  (With more than 20 reviews the claim fails: ids evicted from
the window whose dates are not strictly before the recorded
last-review date are re-accepted, see the counterexample.) -/
theorem C1_watermark_idempotence_amended (setOrder : List String → List String)
    (hso : ∀ l, List.Perm (setOrder l) l)
    (now : PDate) (ts : Nat) (url : String) (pages : List PageModel)
    (rs : List Review)
    (hrun : (parse_product_reviews now ts url pages none false none []).reviews = rs)
    (hlen : rs.length ≤ 20)
    (hnd : (rs.map Review.review_id).Nodup)
    (hall : ∀ r ∈ rs, r.review_id ≠ "" ∧ ∃ d, r.date = some d ∧ d ≠ "") :
    (parse_product_reviews now ts url pages none true
        (get_last_review_date (save_reviews setOrder Store.init rs))
        (get_last_review_ids (save_reviews setOrder Store.init rs))).reviews = [] := by
  have hw := save_reviews_window setOrder hso rs Store.init
    (by simpa [Store.init] using hnd) (by simpa [Store.init] using hlen)
    (by simp [Store.init, ProductMeta.init]) hall
  cases hurl : extract_product_id url with
  | none => simp [parse_product_reviews, hurl]
  | some pid =>
    have htr : (parseLoop pid ts now none pages [] 0).raw = rs := by
      have h2 := hrun
      simp only [parse_product_reviews, hurl] at h2
      simpa [filterIncremental] using h2
    simp only [parse_product_reviews, hurl]
    show filterIncremental now true
        (get_last_review_date (save_reviews setOrder Store.init rs))
        (get_last_review_ids (save_reviews setOrder Store.init rs))
        (parseLoop pid ts now none pages [] 0).raw = []
    rw [htr]
    by_cases hrs : rs = []
    · subst hrs
      simp [filterIncremental]
    · have hperm : List.Perm (get_last_review_ids (save_reviews setOrder Store.init rs))
          (rs.map Review.review_id) := by
        simpa [get_last_review_ids, Store.init] using hw.2.1
      have htruthy := hw.2.2.2 hrs
      obtain ⟨lds, hlds, hldsne⟩ :=
        (truthyStr_iff (save_reviews setOrder Store.init rs).meta.last_review_date).mp htruthy
      unfold filterIncremental
      rw [if_pos ⟨rfl, htruthy, hrs⟩]
      rw [List.filter_eq_nil_iff]
      intro a ha
      have hmem : a.review_id ∈ get_last_review_ids (save_reviews setOrder Store.init rs) :=
        hperm.mem_iff.mpr (List.mem_map_of_mem Review.review_id ha)
      have hcond : get_last_review_ids (save_reviews setOrder Store.init rs) ≠ [] ∧
          a.review_id ∈ get_last_review_ids (save_reviews setOrder Store.init rs) :=
        ⟨List.ne_nil_of_mem hmem, hmem⟩
      simp only [get_last_review_date, hlds, is_newer_review, if_neg hldsne, if_pos hcond]
      simp

/-- Witness for C1's amended statement: a two-review product crawled
fully, flushed, then crawled again incrementally accepts nothing. -/
theorem C1_watermark_idempotence_amended_witness :
    (parse_product_reviews nowRef 0 urlRef
        [⟨false, [⟨some "w1", "excellent purchase", some "01.02.2025", false⟩,
                  ⟨some "w2", "would not recommend", some "02.02.2025", false⟩]⟩]
        none true
        (get_last_review_date (save_reviews (fun l => l) Store.init
          [⟨"w1", some "01.02.2025", "excellent purchase"⟩,
           ⟨"w2", some "02.02.2025", "would not recommend"⟩]))
        (get_last_review_ids (save_reviews (fun l => l) Store.init
          [⟨"w1", some "01.02.2025", "excellent purchase"⟩,
           ⟨"w2", some "02.02.2025", "would not recommend"⟩]))).reviews = [] :=
  C1_watermark_idempotence_amended (fun l => l) (fun l => List.Perm.refl l)
    nowRef 0 urlRef
    [⟨false, [⟨some "w1", "excellent purchase", some "01.02.2025", false⟩,
              ⟨some "w2", "would not recommend", some "02.02.2025", false⟩]⟩]
    [⟨"w1", some "01.02.2025", "excellent purchase"⟩,
     ⟨"w2", some "02.02.2025", "would not recommend"⟩]
    rfl (by decide) (by decide)
    (by
      intro r hr
      simp only [List.mem_cons, List.not_mem_nil, or_false] at hr
      rcases hr with rfl | rfl
      · exact ⟨by decide, "01.02.2025", rfl, by decide⟩
      · exact ⟨by decide, "02.02.2025", rfl, by decide⟩)

set_option maxRecDepth 100000 in
set_option maxHeartbeats 1000000 in
/-- C1 counterexample: twenty-one reviews sharing one date, full crawl
flushed, source unchanged.  The id window only keeps twenty ids, the
evicted review's date is not strictly before the recorded
last-review date, so the second (incremental) run accepts it again:
the run accepts one record, not zero. -/
theorem C1_counterexample :
    c1SecondRun.reviews ≠ [] ∧
    c1SecondRun.reviews = [⟨"r1", some "10.01.2024", "great product overall"⟩] := by
  constructor
  · decide
  · decide

end OzonReviews
